import Mathlib

/-!
Verification of the `tap::reffed` module: method-directed reference-to-reference
conversion.  The Rust source declares two traits, `Reffed` and `RefMuted`,
each with a single method that puts the conversion's target type parameter on
the method (`.reffed::<T>()`, `.ref_muted::<T>()`), and blanket-implements them
for every (possibly unsized) type, delegating to the standard conversion
capabilities `AsRef<T>` and `AsMut<T>`.

Embedding choices:
- a shared reference `&T` is represented by the value of type `T` it lets the
  holder observe;
- an exclusive reference `&mut U` carved out of a value of type `S` is
  represented by a lens (`MutRef S U`): what the holder reads through it
  (`get`) and how a write through it lands back in the `S` value (`set`);
- the trait bound `Self: AsRef<T>` (resp. `AsMut<T>`) becomes a class whose
  instance carries the conversion declared by the concrete type;
- which `AsRef`/`AsMut` implementations exist is a closed-world fact of the
  surrounding library ecosystem; a small tag universe `Ty` with capability
  tables (taken from the Rust standard library implementations for the types
  used in the module's doc examples) models it for availability claims.
-/

namespace TapReffed

set_option autoImplicit false

/-- Models Rust's `std::convert::AsRef<T>` for a receiver type `S`: the
single-direction conversion capability `fn as_ref(&self) -> &T`, declared
externally by each concrete type.  The shared reference returned is
represented by the `T` value observed through it. -/
class AsRef (S : Type) (T : Type) : Type where
  as_ref : S → T

/-- An exclusive reference into a value of type `S` exposing a `T` view: the
value read through the reference (`get`) and the effect on the underlying `S`
of writing a `T` through it (`set`).  This represents Rust's `&mut T`
borrowed out of `&mut S`. -/
structure MutRef (S : Type) (T : Type) : Type where
  get : S → T
  set : S → T → S

/-- Models Rust's `std::convert::AsMut<T>` for a receiver type `S`: the
mutable conversion capability `fn as_mut(&mut self) -> &mut T`, declared
externally by each concrete type.  The exclusive reference it returns is the
lens `as_mut`. -/
class AsMut (S : Type) (T : Type) : Type where
  as_mut : MutRef S T

/-- Performing a mutation `f` through an exclusive reference `r` into `s`:
read the `T` view, transform it, write it back.  The result is the underlying
`S` value after the write. -/
def modifyThrough {S T : Type} (r : MutRef S T) (f : T → T) (s : S) : S :=
  r.set s (f (r.get s))

/-- The trait `Reffed` from `src/reffed.rs`: one method
`fn reffed<T>(&self) -> &T where Self: AsRef<T>, T: ?Sized` whose target
type is an explicit parameter of the method. -/
class Reffed (S : Type) : Type 1 where
  reffed : (T : Type) → [inst : AsRef S T] → S → T

/-- The blanket implementation `impl<T: ?Sized> Reffed for T`: the body of
`reffed` is exactly `self.as_ref()`. -/
instance instReffed (S : Type) : Reffed S :=
  ⟨fun _ _ v => AsRef.as_ref v⟩

/-- The trait `RefMuted` from `src/reffed.rs`: one method
`fn ref_muted<T>(&mut self) -> &mut T where Self: AsMut<T>, T: ?Sized`.
The exclusive reference it returns is represented as the lens it exposes. -/
class RefMuted (S : Type) : Type 1 where
  ref_muted : (T : Type) → [inst : AsMut S T] → MutRef S T

/-- The blanket implementation `impl<T: ?Sized> RefMuted for T`: the body of
`ref_muted` is exactly `self.as_mut()`. -/
instance instRefMuted (S : Type) : RefMuted S :=
  ⟨fun _ _ => AsMut.as_mut⟩

/-- State-passing form of a call `v.reffed::<T>()`.  The receiver is taken by
shared reference, and the body `self.as_ref()` performs no write, so the call
yields the returned view paired with the receiver's (unchanged) value. -/
def reffedCall (S T : Type) [inst : AsRef S T] (s : S) : T × S :=
  (@Reffed.reffed S (instReffed S) T inst s, s)

/-- State-passing form of a call `v.ref_muted::<T>()`.  The body
`self.as_mut()` only reborrows the receiver and performs no write of its own,
so the call yields the returned exclusive reference (as a lens) paired with
the receiver's value at the moment of the call, unchanged. -/
def ref_mutedCall (S T : Type) [inst : AsMut S T] (s : S) : MutRef S T × S :=
  (@RefMuted.ref_muted S (instRefMuted S) T inst, s)

/-- Two consecutive calls of `v.reffed::<T>()` on the same unmodified
receiver, as in the referential-transparency property of the spec. -/
def observeTwice (S T : Type) [inst : AsRef S T] (v : S) : T × T :=
  (@Reffed.reffed S (instReffed S) T inst v, @Reffed.reffed S (instReffed S) T inst v)

/-- Model of `std::path::Path` as used in the module's doc example: an
unsized view type whose content is the path text. -/
structure Path : Type where
  inner : String

/-- Model of `Path::display(...).to_string()`: renders the path's textual
form. -/
def Path.display (p : Path) : String :=
  p.inner

/-- The standard library implementation `impl AsRef<Path> for str`. -/
instance instStrAsRefPath : AsRef String Path :=
  ⟨fun s => ⟨s⟩⟩

/-- Model of a growable byte buffer `Vec<u8>`; bytes are naturals below 256. -/
structure VecU8 : Type where
  data : List Nat

/-- Model of the byte-slice view type `[u8]`. -/
abbrev SliceU8 : Type := List Nat

/-- The standard library implementation `impl AsMut<[u8]> for Vec<u8>`: the
returned exclusive slice reads the buffer's bytes, and a write through it
replaces the buffer's bytes. -/
instance instVecAsMutSlice : AsMut VecU8 SliceU8 :=
  ⟨⟨fun v => v.data, fun _ t => ⟨t⟩⟩⟩

/-- The standard library implementation `impl AsRef<[u8]> for Vec<u8>`. -/
instance instVecAsRefSlice : AsRef VecU8 SliceU8 :=
  ⟨fun v => v.data⟩

/-- Model of `<[u8]>::make_ascii_uppercase` on the byte-slice view: each byte
in the ASCII range of lowercase letters (97–122) is replaced by its uppercase
counterpart (32 less); every other byte is unchanged.  The in-place mutation
is represented by the resulting byte list. -/
def makeAsciiUppercase (l : List Nat) : List Nat :=
  l.map (fun b => if 97 ≤ b ∧ b ≤ 122 then b - 32 else b)

/-- Model of `std::str::from_utf8(..).unwrap()` on ASCII byte content:
interpret each byte as the character with that code point. -/
def strFromUtf8Ascii (l : List Nat) : String :=
  String.mk (l.map Char.ofNat)

/-- Closed universe of the library types that appear in the module's doc
examples, tagging which standard conversion capabilities exist between them. -/
inductive Ty : Type
  | str
  | path
  | vecU8
  | sliceU8
deriving DecidableEq

/-- Which `impl AsRef<b> for a` exist in the surrounding (standard) library
for the closed universe: `str: AsRef<str>`, `str: AsRef<Path>`,
`str: AsRef<[u8]>`, `Path: AsRef<Path>`, `Vec<u8>: AsRef<Vec<u8>>`,
`Vec<u8>: AsRef<[u8]>`, `[u8]: AsRef<[u8]>`. -/
def hasAsRef : Ty → Ty → Bool
  | .str, .str => true
  | .str, .path => true
  | .str, .sliceU8 => true
  | .path, .path => true
  | .vecU8, .vecU8 => true
  | .vecU8, .sliceU8 => true
  | .sliceU8, .sliceU8 => true
  | _, _ => false

/-- Which `impl AsMut<b> for a` exist in the surrounding (standard) library
for the closed universe: `str: AsMut<str>`, `Vec<u8>: AsMut<Vec<u8>>`,
`Vec<u8>: AsMut<[u8]>`, `[u8]: AsMut<[u8]>`.  Neither `str: AsMut<Path>` nor
any other mutable conversion exists for these types. -/
def hasAsMut : Ty → Ty → Bool
  | .str, .str => true
  | .vecU8, .vecU8 => true
  | .vecU8, .sliceU8 => true
  | .sliceU8, .sliceU8 => true
  | _, _ => false

/-- Whether the type is statically sized (`Sized` in Rust): `str`, `Path` and
`[u8]` are dynamically sized; `Vec<u8>` is sized. -/
def isSized : Ty → Bool
  | .vecU8 => true
  | _ => false

/-- Availability of `a.reffed::<b>()` under the blanket implementation
`impl<T: ?Sized> Reffed for T` with method bound `T: AsRef<U>, U: ?Sized`:
the call type-checks exactly when the `AsRef` capability exists; the blanket
impl imposes no further condition (in particular none on sizedness). -/
def canReffed (a b : Ty) : Bool :=
  hasAsRef a b

/-- Availability of `a.ref_muted::<b>()` under the blanket implementation
`impl<T: ?Sized> RefMuted for T` with method bound `T: AsMut<U>, U: ?Sized`:
the call type-checks exactly when the `AsMut` capability exists. -/
def canRefMuted (a b : Ty) : Bool :=
  hasAsMut a b

/-- C1: for every `Self` and target `T` with the `AsRef<T>` capability,
`reffed::<T>()` on a value returns exactly the reference produced by the
declared conversion `as_ref()`: the content observed through the redirected
reference equals the content observed through the declared conversion, for
every value, with no added logic, validation, or transformation. -/
theorem c1_reffed_delegates_to_as_ref :
    ∀ (S T : Type) (inst : AsRef S T) (v : S),
      @Reffed.reffed S (instReffed S) T inst v = @AsRef.as_ref S T inst v :=
  fun _ _ _ _ => rfl

/-- C2: for every `Self` and target `T` with the `AsMut<T>` capability,
`ref_muted::<T>()` on an exclusive reference returns exactly the exclusive
reference produced by the declared mutable conversion `as_mut()` — the same
lens, hence the same reads and the same effect of writes — mirroring the
immutable operation with the mutable capability substituted. -/
theorem c2_ref_muted_delegates_to_as_mut :
    ∀ (S T : Type) (inst : AsMut S T),
      @RefMuted.ref_muted S (instRefMuted S) T inst = @AsMut.as_mut S T inst
      ∧ (∀ s : S, (@RefMuted.ref_muted S (instRefMuted S) T inst).get s
            = (@AsMut.as_mut S T inst).get s)
      ∧ (∀ (s : S) (t : T), (@RefMuted.ref_muted S (instRefMuted S) T inst).set s t
            = (@AsMut.as_mut S T inst).set s t) :=
  fun _ _ _ => ⟨rfl, fun _ => rfl, fun _ _ => rfl⟩

/-- C3: a modification performed through the exclusive reference returned by
`ref_muted::<T>()` is visible through the original reference afterward: for
any declared mutable conversion whose writes land where its reads look (the
aliasing guarantee of a real `&mut` reborrow), reading the view after the
modification sees exactly the modified value; and concretely, the buffer
`vec![104, 105]` ("hi"), uppercased in place through
`ref_muted::<[u8]>()`, reads back as "HI". -/
theorem c3_mutation_visible_through_original :
    (∀ (S T : Type) (inst : AsMut S T),
      (∀ (s : S) (t : T), (@AsMut.as_mut S T inst).get ((@AsMut.as_mut S T inst).set s t) = t) →
      ∀ (f : T → T) (s : S),
        (@RefMuted.ref_muted S (instRefMuted S) T inst).get
            (modifyThrough (@RefMuted.ref_muted S (instRefMuted S) T inst) f s)
          = f ((@RefMuted.ref_muted S (instRefMuted S) T inst).get s))
    ∧ strFromUtf8Ascii
        (modifyThrough (@RefMuted.ref_muted VecU8 (instRefMuted VecU8) SliceU8 instVecAsMutSlice)
          makeAsciiUppercase (VecU8.mk [104, 105])).data = "HI" := by
  constructor
  · intro S T inst hlaw f s
    exact hlaw s (f ((@AsMut.as_mut S T inst).get s))
  · decide

/-- Witness for C3: instantiated at `Vec<u8>` with target `[u8]` and the
uppercasing mutation on the buffer containing the bytes of "hi"; the
read-after-write law of the standard `AsMut<[u8]>` implementation holds
definitionally, and the modified buffer reads back as the uppercased bytes. -/
theorem c3_witness :
    (@RefMuted.ref_muted VecU8 (instRefMuted VecU8) SliceU8 instVecAsMutSlice).get
        (modifyThrough (@RefMuted.ref_muted VecU8 (instRefMuted VecU8) SliceU8 instVecAsMutSlice)
          makeAsciiUppercase (VecU8.mk [104, 105]))
      = makeAsciiUppercase
          ((@RefMuted.ref_muted VecU8 (instRefMuted VecU8) SliceU8 instVecAsMutSlice).get
            (VecU8.mk [104, 105])) :=
  c3_mutation_visible_through_original.1 VecU8 SliceU8 instVecAsMutSlice
    (fun _ _ => rfl) makeAsciiUppercase (VecU8.mk [104, 105])

/-- C4: `reffed` is a pure, deterministic function of the input: calling it
twice on the same unmodified input yields views whose observed content is
identical both times. -/
theorem c4_two_run_determinism :
    ∀ (S T : Type) (inst : AsRef S T) (v : S),
      (@observeTwice S T inst v).1 = (@observeTwice S T inst v).2 :=
  fun _ _ _ _ => rfl

/-- C5: the redirection call itself never mutates the referenced value: after
a `reffed::<T>()` call, and after a `ref_muted::<T>()` call before any use of
the returned reference, the receiver's content is unchanged. -/
theorem c5_call_leaves_receiver_unchanged :
    ∀ (S T : Type) (instR : AsRef S T) (instM : AsMut S T) (s : S),
      (@reffedCall S T instR s).2 = s ∧ (@ref_mutedCall S T instM s).2 = s :=
  fun _ _ _ _ _ => ⟨rfl, rfl⟩

/-- C6: redirection succeeds when the target is a dynamically-sized view
type, and the concrete doc-example scenario holds: the input
"/some/sort/of/path", redirected via `reffed::<Path>()` and rendered through
`display`, yields the string "/some/sort/of/path". -/
theorem c6_unsized_target_path_display :
    isSized Ty.path = false ∧ canReffed Ty.str Ty.path = true
    ∧ Path.display
        (@Reffed.reffed String (instReffed String) Path instStrAsRefPath "/some/sort/of/path")
      = "/some/sort/of/path" :=
  ⟨rfl, rfl, rfl⟩

/-- C7: for every `Self`/`T` pair satisfying the capability bound, `reffed`
and `ref_muted` are total with no runtime failure path: each call always
returns a result (there is no error variant and no failing branch; ill-formed
calls are excluded by the capability hypothesis). -/
theorem c7_total_no_runtime_failure :
    (∀ (S T : Type) (inst : AsRef S T) (v : S),
      ∃ t : T, @Reffed.reffed S (instReffed S) T inst v = t)
    ∧ (∀ (S T : Type) (inst : AsMut S T),
      ∃ r : MutRef S T, @RefMuted.ref_muted S (instRefMuted S) T inst = r) :=
  ⟨fun S T inst v => ⟨@Reffed.reffed S (instReffed S) T inst v, rfl⟩,
   fun S T inst => ⟨@RefMuted.ref_muted S (instRefMuted S) T inst, rfl⟩⟩

/-- C8: blanket applicability: every type carries the `Reffed` and `RefMuted`
capabilities (the blanket implementations apply uniformly, with no per-type
registration), and on every type their methods are, for every target with the
corresponding conversion capability, the declared conversion itself. -/
theorem c8_blanket_applicability :
    ∀ S : Type, Nonempty (Reffed S) ∧ Nonempty (RefMuted S)
    ∧ (∀ (T : Type) (inst : AsRef S T) (v : S),
        @Reffed.reffed S (instReffed S) T inst v = @AsRef.as_ref S T inst v)
    ∧ (∀ (T : Type) (inst : AsMut S T),
        @RefMuted.ref_muted S (instRefMuted S) T inst = @AsMut.as_mut S T inst) :=
  fun S => ⟨⟨instReffed S⟩, ⟨instRefMuted S⟩, fun _ _ _ => rfl, fun _ _ => rfl⟩

/-- C9: the immutable and mutable capabilities are checked independently:
availability of `reffed` is exactly the `AsRef` capability and availability
of `ref_muted` is exactly the `AsMut` capability, each consulting only its
own table; `str`/`Path` is a pair where the immutable redirection is
available and the mutable one is not, so the immutable capability does not
imply the mutable one. -/
theorem c9_directions_independent :
    (∀ a b : Ty, canReffed a b = hasAsRef a b)
    ∧ (∀ a b : Ty, canRefMuted a b = hasAsMut a b)
    ∧ canReffed Ty.str Ty.path = true ∧ canRefMuted Ty.str Ty.path = false
    ∧ ¬ (∀ a b : Ty, hasAsRef a b = true → hasAsMut a b = true) := by
  refine ⟨fun _ _ => rfl, fun _ _ => rfl, rfl, rfl, ?_⟩
  intro h
  exact absurd (h Ty.str Ty.path rfl) (by decide)

/-- C10: the blanket implementations put a `?Sized` bound on the implementing
type, so dynamically-sized receivers also gain the methods: availability
never consults sizedness, and the unsized `str` has `reffed::<Path>()` and
`ref_muted::<str>()` available, as the unsized `[u8]` has
`ref_muted::<[u8]>()`. -/
theorem c10_unsized_receivers_supported :
    (∀ a b : Ty, canReffed a b = hasAsRef a b ∧ canRefMuted a b = hasAsMut a b)
    ∧ isSized Ty.str = false ∧ canReffed Ty.str Ty.path = true
    ∧ canRefMuted Ty.str Ty.str = true
    ∧ isSized Ty.sliceU8 = false ∧ canRefMuted Ty.sliceU8 Ty.sliceU8 = true :=
  ⟨fun _ _ => ⟨rfl, rfl⟩, rfl, rfl, rfl, rfl, rfl⟩

end TapReffed
